import Mathlib

/-!
Verification of the syncthing FAT filename-encoding layer.

Names are modelled as lists of Unicode scalar values (Go runes), since the
codec operates rune by rune: the x/text runes.Map transformer decodes the
UTF-8 input to runes, applies a pure rune-to-rune map, and re-encodes.
Definitions mirror lib/encoding/fat (package fat), lib/encoding/fat/consts,
lib/fs (encoderFS, fatEncoderFS, EncoderType) and lib/fsutil.
-/

namespace Syncthing

namespace consts

/-- BaseRune is the first rune in the Private Use Area plane (0xf000). -/
def BaseRune : Nat := 0xf000

/-- NumChars is the range of characters the codec might encode (0-0xff). -/
def NumChars : Nat := 0x100

/-- Encodes contains the characters the FAT encoder encodes: the control
characters 0x01-0x1f and the seven reserved glyphs. This is the default
(non-android) table from consts; the android variant would add 0x7f. -/
def Encodes : List Nat :=
  [0x01, 0x02, 0x03, 0x04, 0x05, 0x06, 0x07, 0x08, 0x09, 0x0a,
   0x0b, 0x0c, 0x0d, 0x0e, 0x0f, 0x10, 0x11, 0x12, 0x13, 0x14,
   0x15, 0x16, 0x17, 0x18, 0x19, 0x1a, 0x1b, 0x1c, 0x1d, 0x1e, 0x1f,
   0x22, 0x2a, 0x3a, 0x3c, 0x3e, 0x3f, 0x7c]

/-- Nevers contains characters the codec never encodes: NUL, slash, backslash. -/
def Nevers : List Nat := [0x00, 0x2f, 0x5c]

/-- PatternNevers contains the characters not encoded in glob patterns. -/
def PatternNevers : List Nat := [0x2a, 0x3f]

end consts

namespace fat

/-- Modelled from the spec: the generated lookup table puaEncodes
(default_table.go, produced by maketables.go) is not among the sources; per
the spec, the escape mapping sends each Reserved code point c to
BaseOffset + c and acts as the identity elsewhere, which the repository
test suite pins as: the table entry for r is r OR BaseRune exactly when r
is a member of consts.Encodes, and r itself otherwise. -/
def puaEncodes (r : Nat) : Nat :=
  if r ∈ consts.Encodes then consts.BaseRune ||| r else r

/-- Modelled from the spec: the generated table puaPatternEncodes is the
same mapping as puaEncodes except that members of PatternNeverEscape (the
glob wildcards in consts.PatternNevers) are never substituted. -/
def puaPatternEncodes (r : Nat) : Nat :=
  if r ∈ consts.Encodes ∧ r ∉ consts.PatternNevers then consts.BaseRune ||| r else r

/-- Go expression r AND-NOT consts.BaseRune on a 32-bit rune, written with
Nat bitwise operations (runes reaching it are below 2^32). -/
def runeAndNotBase (r : Nat) : Nat := r &&& (0xffffffff ^^^ consts.BaseRune)

/-- Rune map of the PUA decode transformer (fat.go): runes outside the
escape region pass through; a rune inside it is stripped of the base offset
exactly when the table marks the stripped value as one that encodes. -/
def puaDecodeTransformer (r : Nat) : Nat :=
  if r < consts.BaseRune ∨ consts.BaseRune + consts.NumChars ≤ r then r
  else if consts.BaseRune ≤ puaEncodes (runeAndNotBase r) then runeAndNotBase r
  else r

/-- Rune map of the PUA encoding transformer (fat.go): runes below NumChars
are sent through the puaEncodes table, all others pass through. -/
def puaEncodingTransformer (r : Nat) : Nat :=
  if r < consts.NumChars then puaEncodes r else r

/-- Rune map of the PUA pattern encoding transformer (fat.go). -/
def puaPatternEncodingTransformer (r : Nat) : Nat :=
  if r < consts.NumChars then puaPatternEncodes r else r

/-- IsDecoded returns true if name has characters that would be encoded. -/
def IsDecoded (name : List Nat) : Bool :=
  name.any fun r =>
    decide (r < consts.NumChars) && decide (consts.BaseRune ≤ puaEncodes r)

/-- IsEncoded returns true if name has encoded characters. -/
def IsEncoded (name : List Nat) : Bool :=
  name.any fun r =>
    (decide (consts.BaseRune ≤ r) && decide (r < consts.BaseRune + consts.NumChars))
      && decide (consts.BaseRune ≤ puaEncodes (r &&& 0xff))

/-- Decode decodes any encoded FAT reserved characters found in name. The
transformer is a stateless whole-rune map, so the decoder never returns an
error (as the package documentation in fat.go proves at length); the error
channel is kept to mirror the Go signature. -/
def Decode (name : List Nat) : Except String (List Nat) :=
  .ok (name.map puaDecodeTransformer)

/-- Encode encodes the FAT reserved characters found in name; like Decode
it cannot fail, the error channel mirrors the Go signature. -/
def Encode (name : List Nat) : Except String (List Nat) :=
  .ok (name.map puaEncodingTransformer)

/-- EncodePattern encodes the FAT reserved characters found in a glob
pattern, leaving the wildcards in consts.PatternNevers untouched. -/
def EncodePattern (p : List Nat) : Except String (List Nat) :=
  .ok (p.map puaPatternEncodingTransformer)

end fat

/-- Helper: a map whose function fixes every member of a list leaves the
list unchanged. -/
theorem list_map_id_of_mem {f : Nat → Nat} :
    ∀ (l : List Nat), (∀ c ∈ l, f c = c) → l.map f = l := by
  intro l h
  induction l with
  | nil => rfl
  | cons a t ih =>
    simp only [List.map_cons, List.cons.injEq]
    exact ⟨h a (by simp), ih fun c hc => h c (by simp [hc])⟩

/-- Helper: any is determined by the pointwise values of its predicate on
the members of the list. -/
theorem list_any_congr {f g : Nat → Bool} :
    ∀ (l : List Nat), (∀ c ∈ l, f c = g c) → l.any f = l.any g := by
  intro l h
  induction l with
  | nil => rfl
  | cons a t ih =>
    simp only [List.any_cons]
    rw [h a (by simp), ih fun c hc => h c (by simp [hc])]

/-- Helper: every member of consts.Encodes round-trips through the encoding
and decoding transformers. -/
theorem roundtrip_of_mem_Encodes :
    ∀ c ∈ consts.Encodes,
      fat.puaDecodeTransformer (fat.puaEncodingTransformer c) = c := by
  decide

/-- Helper: a rune outside the escape region is restored by decoding its
encoding. -/
theorem roundtrip_rune (c : Nat) (h : ¬(consts.BaseRune ≤ c ∧ c < consts.BaseRune + consts.NumChars)) :
    fat.puaDecodeTransformer (fat.puaEncodingTransformer c) = c := by
  by_cases hm : c ∈ consts.Encodes
  · exact roundtrip_of_mem_Encodes c hm
  · have hbase : consts.BaseRune = 0xf000 := rfl
    have hnum : consts.NumChars = 0x100 := rfl
    by_cases hlt : c < consts.NumChars
    · have hc : fat.puaEncodingTransformer c = c := by
        unfold fat.puaEncodingTransformer fat.puaEncodes
        rw [if_pos hlt, if_neg hm]
      rw [hc]
      unfold fat.puaDecodeTransformer
      rw [if_pos]
      left
      omega
    · have hc : fat.puaEncodingTransformer c = c := by
        unfold fat.puaEncodingTransformer
        rw [if_neg hlt]
      rw [hc]
      unfold fat.puaDecodeTransformer
      rw [if_pos]
      rw [hbase, hnum] at h ⊢
      omega

/-- C1: for every string s (sequence of Unicode scalar values) containing
no code points in the escape region 0xf000-0xf0ff, Encode succeeds, Decode
of the result succeeds, and the round trip restores s exactly. -/
theorem fat_encode_decode_roundtrip (s : List Nat)
    (h : ∀ c ∈ s, ¬(0xf000 ≤ c ∧ c < 0xf100)) :
    ∃ e, fat.Encode s = Except.ok e ∧ fat.Decode e = Except.ok s := by
  refine ⟨s.map fat.puaEncodingTransformer, rfl, ?_⟩
  unfold fat.Decode
  rw [List.map_map]
  have : s.map (fat.puaDecodeTransformer ∘ fat.puaEncodingTransformer) = s := by
    apply list_map_id_of_mem
    intro c hc
    exact roundtrip_rune c (h c hc)
  rw [this]

/-- Witness for C1 at the concrete input "a:" (0x61, 0x3a). -/
theorem fat_encode_decode_roundtrip_witness :
    ∃ e, fat.Encode [0x61, 0x3a] = Except.ok e ∧ fat.Decode e = Except.ok [0x61, 0x3a] :=
  fat_encode_decode_roundtrip [0x61, 0x3a] (by decide)

/-- C3: buffer-boundary invariance. Splitting a string of scalar values at
any point and encoding (or decoding) the pieces independently produces, in
concatenation, the same output as one whole-string call; no call errors. -/
theorem fat_chunking_invariance (s : List Nat) (i : Nat) :
    (∃ e₁ e₂,
        fat.Encode (s.take i) = Except.ok e₁ ∧
        fat.Encode (s.drop i) = Except.ok e₂ ∧
        fat.Encode s = Except.ok (e₁ ++ e₂)) ∧
    (∃ d₁ d₂,
        fat.Decode (s.take i) = Except.ok d₁ ∧
        fat.Decode (s.drop i) = Except.ok d₂ ∧
        fat.Decode s = Except.ok (d₁ ++ d₂)) := by
  constructor
  · refine ⟨(s.take i).map fat.puaEncodingTransformer,
      (s.drop i).map fat.puaEncodingTransformer, rfl, rfl, ?_⟩
    unfold fat.Encode
    rw [← List.map_append, List.take_append_drop]
  · refine ⟨(s.take i).map fat.puaDecodeTransformer,
      (s.drop i).map fat.puaDecodeTransformer, rfl, rfl, ?_⟩
    unfold fat.Decode
    rw [← List.map_append, List.take_append_drop]

/-- C6: the pattern encoder agrees with the plain encoder on every rune
outside PatternNevers, fixes the wildcards in PatternNevers even though
they are reserved, and on the concrete patterns of the claim yields
EncodePattern of asterisk-colon = asterisk, 0xf03a, and EncodePattern of
colon-asterisk-colon = 0xf03a, asterisk, 0xf03a. -/
theorem fat_pattern_exemption :
    (∀ c, c ∉ consts.PatternNevers →
      fat.puaPatternEncodingTransformer c = fat.puaEncodingTransformer c) ∧
    (∀ c ∈ consts.PatternNevers,
      fat.puaPatternEncodingTransformer c = c ∧ fat.puaEncodingTransformer c ≠ c) ∧
    fat.EncodePattern [0x2a, 0x3a] = Except.ok [0x2a, 0xf03a] ∧
    fat.EncodePattern [0x3a, 0x2a, 0x3a] = Except.ok [0xf03a, 0x2a, 0xf03a] := by
  refine ⟨?_, by decide, by rfl, by rfl⟩
  intro c hc
  unfold fat.puaPatternEncodingTransformer fat.puaEncodingTransformer
  by_cases hlt : c < consts.NumChars
  · rw [if_pos hlt, if_pos hlt]
    unfold fat.puaPatternEncodes fat.puaEncodes
    by_cases hm : c ∈ consts.Encodes
    · rw [if_pos ⟨hm, hc⟩, if_pos hm]
    · rw [if_neg (by exact fun hand => hm hand.1), if_neg hm]
  · rw [if_neg hlt, if_neg hlt]

/-- Witness for C6: the general agreement clause applied at the concrete
rune colon (0x3a), which is not a wildcard. -/
theorem fat_pattern_exemption_witness :
    fat.puaPatternEncodingTransformer 0x3a = fat.puaEncodingTransformer 0x3a :=
  fat_pattern_exemption.1 0x3a (by decide)

/-- Helper: for members of Encodes, the encoded form satisfies the
IsEncoded per-rune test and the original satisfies the IsDecoded test. -/
theorem classify_of_mem_Encodes :
    ∀ c ∈ consts.Encodes,
      ((decide (consts.BaseRune ≤ fat.puaEncodingTransformer c) &&
        decide (fat.puaEncodingTransformer c < consts.BaseRune + consts.NumChars))
         && decide (consts.BaseRune ≤ fat.puaEncodes (fat.puaEncodingTransformer c &&& 0xff)))
        = true ∧
      (decide (c < consts.NumChars) && decide (consts.BaseRune ≤ fat.puaEncodes c)) = true := by
  decide

/-- C8: for a string with no escape-region code points, the encoded output
is classified encoded exactly when the input is classified decoded. -/
theorem fat_classification_consistency (s : List Nat)
    (h : ∀ c ∈ s, ¬(0xf000 ≤ c ∧ c < 0xf100)) :
    ∃ e, fat.Encode s = Except.ok e ∧ fat.IsEncoded e = fat.IsDecoded s := by
  refine ⟨s.map fat.puaEncodingTransformer, rfl, ?_⟩
  unfold fat.IsEncoded fat.IsDecoded
  rw [List.any_map]
  apply list_any_congr
  intro c hc
  by_cases hm : c ∈ consts.Encodes
  · have hard := classify_of_mem_Encodes c hm
    simp only [Function.comp_apply]
    rw [hard.1, hard.2]
  · by_cases hlt : c < consts.NumChars
    · have henc : fat.puaEncodingTransformer c = c := by
        unfold fat.puaEncodingTransformer fat.puaEncodes
        rw [if_pos hlt, if_neg hm]
      have htab : fat.puaEncodes c = c := by
        unfold fat.puaEncodes
        rw [if_neg hm]
      simp only [Function.comp_apply, henc, htab]
      have h1 : ¬consts.BaseRune ≤ c := by
        revert hlt
        unfold consts.NumChars consts.BaseRune
        omega
      have h2 : ¬consts.BaseRune ≤ c := h1
      simp [h1, h2]
    · have henc : fat.puaEncodingTransformer c = c := by
        unfold fat.puaEncodingTransformer
        rw [if_neg hlt]
      have hout := h c hc
      have h1 : ¬(consts.BaseRune ≤ c ∧ c < consts.BaseRune + consts.NumChars) := by
        revert hout
        unfold consts.NumChars consts.BaseRune
        omega
      simp only [Function.comp_apply, henc]
      rw [Bool.and_eq_false_iff.mpr, Bool.and_eq_false_iff.mpr]
      · left
        simp [hlt]
      · left
        rw [Bool.and_eq_false_iff]
        by_cases hb : consts.BaseRune ≤ c
        · right
          simp only [decide_eq_false_iff_not]
          intro hcc
          exact h1 ⟨hb, hcc⟩
        · left
          simp [hb]

/-- Witness for C8 at the concrete input "a:" (0x61, 0x3a). -/
theorem fat_classification_consistency_witness :
    ∃ e, fat.Encode [0x61, 0x3a] = Except.ok e ∧
      fat.IsEncoded e = fat.IsDecoded [0x61, 0x3a] :=
  fat_classification_consistency [0x61, 0x3a] (by decide)

namespace fs

/-- Error sentinels of the os package relevant to the decorator. -/
inductive baseErr where
  | errNotExist
  | errInvalid
  deriving DecidableEq, Repr

/-- os.PathError: an operation, the offending path (as runes here), and the
wrapped sentinel. -/
structure PathError where
  op : String
  path : List Nat
  err : baseErr
  deriving DecidableEq, Repr

/-- The FAT decorator state that the encode step reads: fatEncoderFS embeds
encoderFS, whose only mutable field relevant here is the pattern flag that
Glob toggles around its delegated call. -/
structure fatEncoderFS where
  pattern : Bool
  deriving DecidableEq, Repr

/-- The encode step of the FAT decorator (fatEncoderFS.encode in
encoderfs_fat.go): pre-encoded names are rejected with an os.PathError
wrapping os.ErrNotExist and an empty result; names with nothing to encode
pass through; otherwise the instance pattern field, not the pattern
argument, selects between the pattern encoder and the plain encoder. The
Go parameter named pattern is unused in the body. -/
def fatEncoderFS.encode (f : fatEncoderFS) (name : List Nat) (_patternArg : Bool) :
    List Nat × Option PathError :=
  if fat.IsEncoded name then
    ([], some ⟨"encode", name, .errNotExist⟩)
  else if ¬fat.IsDecoded name then
    (name, none)
  else if f.pattern then
    (name.map fat.puaPatternEncodingTransformer, none)
  else
    (name.map fat.puaEncodingTransformer, none)

/-- C2: a name that is already encoded is always rejected by the FAT
decorator encode step, whatever the instance state and the pattern
argument: the result is empty and the error is an os.PathError with
operation encode wrapping os.ErrNotExist. -/
theorem fat_encode_rejects_preencoded (f : fatEncoderFS) (name : List Nat) (p : Bool)
    (h : fat.IsEncoded name = true) :
    fatEncoderFS.encode f name p = ([], some ⟨"encode", name, .errNotExist⟩) := by
  unfold fatEncoderFS.encode
  rw [if_pos h]

/-- Witness for C2 at the pre-encoded name 0xf03a (the encoded colon). -/
theorem fat_encode_rejects_preencoded_witness :
    fat.IsEncoded [0xf03a] = true ∧
      fatEncoderFS.encode ⟨false⟩ [0xf03a] false
        = ([], some ⟨"encode", [0xf03a], .errNotExist⟩) :=
  ⟨by decide, fat_encode_rejects_preencoded ⟨false⟩ [0xf03a] false (by decide)⟩

/-- C10: the pattern argument of the decorator encode step is ignored; the
result is the same for any two argument values, and with the instance
pattern field set (as Glob sets it) even a call passing false, as
CreateSymlink does for the symlink target, uses the pattern-exempting
encoder, while with the field clear the plain encoder is used. -/
theorem fat_encode_ignores_pattern_arg :
    (∀ (f : fatEncoderFS) (name : List Nat) (p₁ p₂ : Bool),
        fatEncoderFS.encode f name p₁ = fatEncoderFS.encode f name p₂) ∧
    fatEncoderFS.encode ⟨true⟩ [0x2a, 0x3a] false = ([0x2a, 0xf03a], none) ∧
    fatEncoderFS.encode ⟨false⟩ [0x2a, 0x3a] false = ([0xf02a, 0xf03a], none) := by
  refine ⟨fun f name p₁ p₂ => rfl, by rfl, by rfl⟩

/-- The underlying volume at the decorator boundary: it accepts or rejects
an on-disk name. This abstracts basicFilesystem plus the OS volume. -/
structure Volume where
  accepts : List Nat → Bool

/-- A basicFile handle carries the on-disk name it was created with. -/
structure basicFile where
  diskName : List Nat
  deriving DecidableEq, Repr

/-- The underlying Create at the decorator boundary: the (already encoded)
on-disk name is accepted or rejected by the volume. -/
def basicCreate (v : Volume) (name : List Nat) : Except PathError basicFile :=
  if v.accepts name then .ok ⟨name⟩ else .error ⟨"open", name, .errInvalid⟩

/-- The encoderFile wrapper (encoderfs.go): it holds the underlying handle,
whose name on disk is the encoded one, plus the original pre-encoding name. -/
structure encoderFile where
  basic : basicFile
  name : List Nat
  deriving DecidableEq, Repr

/-- encoderFile.Name returns the original, pre-encoding name. -/
def encoderFile.Name (fd : encoderFile) : List Nat := fd.name

/-- encoderFS.Create for a FAT decorator: the underlying Create routes the
name through the Rooter chain, where fatEncoderFS.encode translates it to
the on-disk form (failing if the encode step fails); on success the
returned basicFile is wrapped in an encoderFile carrying the original
name. -/
def fatEncoderFS.Create (f : fatEncoderFS) (v : Volume) (name : List Nat) :
    Except PathError encoderFile :=
  match fatEncoderFS.encode f name f.pattern with
  | (_, some e) => .error e
  | (encoded, none) =>
    match basicCreate v encoded with
    | .error e => .error e
    | .ok bfd => .ok ⟨bfd, name⟩

/-- encoderFS.Open for a FAT decorator: same name handling as Create. -/
def fatEncoderFS.Open (f : fatEncoderFS) (v : Volume) (name : List Nat) :
    Except PathError encoderFile :=
  match fatEncoderFS.encode f name f.pattern with
  | (_, some e) => .error e
  | (encoded, none) =>
    match basicCreate v encoded with
    | .error e => .error e
    | .ok bfd => .ok ⟨bfd, name⟩

/-- C7: when a decorator Create or Open succeeds, the returned handle
reports the original pre-encoding name through Name, while the name stored
on disk is the encoded form produced by the encode step. -/
theorem fat_create_preserves_canonical_name (f : fatEncoderFS) (v : Volume)
    (name : List Nat) (fd fd₂ : encoderFile)
    (hc : fatEncoderFS.Create f v name = Except.ok fd)
    (ho : fatEncoderFS.Open f v name = Except.ok fd₂) :
    fd.Name = name ∧ fd.basic.diskName = (fatEncoderFS.encode f name f.pattern).1 ∧
    fd₂.Name = name ∧ fd₂.basic.diskName = (fatEncoderFS.encode f name f.pattern).1 := by
  unfold fatEncoderFS.Create at hc
  unfold fatEncoderFS.Open at ho
  rcases henc : fatEncoderFS.encode f name f.pattern with ⟨encoded, err⟩
  rw [henc] at hc ho
  cases err with
  | some e => exact absurd hc (by simp)
  | none =>
    unfold basicCreate at hc ho
    simp only [] at hc ho
    by_cases hv : v.accepts encoded = true
    · rw [if_pos hv] at hc ho
      simp only [Except.ok.injEq] at hc ho
      subst hc
      subst ho
      exact ⟨rfl, rfl, rfl, rfl⟩
    · rw [if_neg hv] at hc
      exact absurd hc (by simp)

/-- Witness for C7: Create and Open of "a:b" (0x61, 0x3a, 0x62) on a volume
that rejects any on-disk name containing a colon succeed, the handle names
report the original, and the disk name is the encoded form. -/
theorem fat_create_preserves_canonical_name_witness :
    encoderFile.Name ⟨⟨[0x61, 0xf03a, 0x62]⟩, [0x61, 0x3a, 0x62]⟩ = [0x61, 0x3a, 0x62] ∧
    basicFile.diskName ⟨[0x61, 0xf03a, 0x62]⟩
      = (fatEncoderFS.encode ⟨false⟩ [0x61, 0x3a, 0x62] false).1 ∧
    encoderFile.Name ⟨⟨[0x61, 0xf03a, 0x62]⟩, [0x61, 0x3a, 0x62]⟩ = [0x61, 0x3a, 0x62] ∧
    basicFile.diskName ⟨[0x61, 0xf03a, 0x62]⟩
      = (fatEncoderFS.encode ⟨false⟩ [0x61, 0x3a, 0x62] false).1 :=
  fat_create_preserves_canonical_name ⟨false⟩
    ⟨fun n => !(n.contains 0x3a)⟩ [0x61, 0x3a, 0x62]
    ⟨⟨[0x61, 0xf03a, 0x62]⟩, [0x61, 0x3a, 0x62]⟩
    ⟨⟨[0x61, 0xf03a, 0x62]⟩, [0x61, 0x3a, 0x62]⟩ (by rfl) (by rfl)

end fs

namespace fsutil

/-- VolumeType is a Go defined type over int; the constants below are its
values. In fsutil.go the iota block starts at the UnixTempPrefix
ConstSpec, so iota is already 1 at VolumeTypeUnknown: the values are 1, 2
and 3, and the Go zero value VolumeType(0) is none of them. -/
abbrev VolumeType := Int

/-- VolumeTypeUnknown is used when the type cannot be determined; its
value is 1 (iota after the UnixTempPrefix spec), not the zero value. -/
def VolumeTypeUnknown : VolumeType := 1

/-- VolumeTypeFat marks a FAT or FAT-like volume (iota value 2). -/
def VolumeTypeFat : VolumeType := 2

/-- VolumeTypeExt marks a non-FAT-like volume (iota value 3). -/
def VolumeTypeExt : VolumeType := 3

/-- Errors surfaced by the prober: the sentinel values of fsutil plus the
error os.Stat itself reports when the directory cannot be statted (for a
missing path that is the not-exist PathError of the os package, a value
distinct from both sentinels). -/
inductive OsError where
  | statNotExist
  | statPermission
  | notADirectory
  | cannotCreateDirectory
  | probeFailed
  deriving DecidableEq, Repr

/-- Result of os.Stat when it succeeds. -/
structure OsFileInfo where
  isDir : Bool
  deriving DecidableEq, Repr

/-- The external world the prober touches: filepath.Clean (a pure stdlib
path canonicalizer), os.Stat, os.MkdirTemp (none when creation fails), and
the outcome of the isFat probe run inside the created temp directory. -/
structure ProbeWorld where
  clean : String → String
  stat : String → Except OsError OsFileInfo
  mkdirTemp : String → Option String
  isFatProbe : String → Except OsError Bool

/-- getTempDir (fsutil.go): a stat failure is returned verbatim; a
non-directory yields ErrNotADirectory; a MkdirTemp failure yields
ErrCannotCreateDirectory. -/
def getTempDir (w : ProbeWorld) (dir : String) : Except OsError String :=
  match w.stat dir with
  | .error e => .error e
  | .ok info =>
    if !info.isDir then .error .notADirectory
    else
      match w.mkdirTemp dir with
      | some d => .ok d
      | none => .error .cannotCreateDirectory

/-- A Go interface value as stored in the sync.Map: the dynamic type tag
matters because GetVolumeType stores VolumeType values but asserts int. -/
inductive GoAny where
  | goInt (n : Int)
  | goVolumeType (n : Int)
  deriving DecidableEq, Repr

/-- The Go two-valued type assertion a.(int), keeping only the value: it
yields the zero value 0 unless the dynamic type is exactly int, so a
stored VolumeType never satisfies it. -/
def assertInt : GoAny → Int
  | .goInt n => n
  | .goVolumeType _ => 0

/-- The volMap cache contents. -/
abbrev VolMap := List (String × GoAny)

/-- sync.Map.Load. -/
def volMapLoad (vm : VolMap) (k : String) : Option GoAny :=
  (vm.find? (·.1 == k)).map (·.2)

/-- sync.Map.Store (replacing any previous entry for the key). -/
def volMapStore (vm : VolMap) (k : String) (v : GoAny) : VolMap :=
  (k, v) :: vm.filter (·.1 != k)

/-- The probe path of GetVolumeType, taken on every cache miss: create the
temp dir, classify with isFat, store the classification. The result
carries the (VolumeType, error) pair Go returns, the updated map, and the
number of filesystem probe attempts performed (1 here). -/
def probeVolume (w : ProbeWorld) (vm : VolMap) (dir : String) :
    (VolumeType × Option OsError) × VolMap × Nat :=
  match getTempDir w dir with
  | .error e => ((VolumeTypeUnknown, some e), vm, 1)
  | .ok tempDir =>
    match w.isFatProbe tempDir with
    | .error e => ((VolumeTypeUnknown, some e), vm, 1)
    | .ok b =>
      let volumeType := if b then VolumeTypeFat else VolumeTypeExt
      ((volumeType, none), volMapStore vm dir (.goVolumeType volumeType), 1)

/-- GetVolumeType (fsutil.go): cleans the path, consults the cache, and
probes unless the loaded value converted to a non-Unknown VolumeType. A
stored value is read back through the type assertion a.(int), which fails
for the stored VolumeType and yields the zero value 0; since 0 differs
from VolumeTypeUnknown = 1, a cache hit returns (VolumeType(0), nil)
early, without probing. -/
def GetVolumeType (w : ProbeWorld) (vm : VolMap) (dir : String) :
    (VolumeType × Option OsError) × VolMap × Nat :=
  match volMapLoad vm (w.clean dir) with
  | some a =>
    if assertInt a ≠ VolumeTypeUnknown then ((assertInt a, none), vm, 0)
    else probeVolume w vm (w.clean dir)
  | none => probeVolume w vm (w.clean dir)

/-- Helper: on a cache miss for the cleaned path, GetVolumeType takes the
probe path. -/
theorem getVolumeType_probes_on_miss (w : ProbeWorld) (vm : VolMap) (dir : String)
    (h : volMapLoad vm (w.clean dir) = none) :
    GetVolumeType w vm dir = probeVolume w vm (w.clean dir) := by
  unfold GetVolumeType
  rw [h]

/-- C4 (amended): on a call whose cleaned path has no cache entry, if
os.Stat on the cleaned directory fails, GetVolumeType returns that stat
error verbatim; if the path exists but is not a directory it fails with
ErrNotADirectory; if the temp probe directory cannot be created it fails
with ErrCannotCreateDirectory; in every failure case the classification
returned alongside is VolumeTypeUnknown, never a default Fat or Ext, and
the cache is left unchanged. (The cache-miss restriction is needed: on a
cache hit the code returns (VolumeType(0), nil) early, without calling
stat, because the failed a.(int) assertion yields 0 which differs from
VolumeTypeUnknown = 1.) -/
theorem getVolumeType_error_reporting (w : ProbeWorld) (vm : VolMap) (dir : String)
    (h : volMapLoad vm (w.clean dir) = none) :
    (∀ e, w.stat (w.clean dir) = .error e →
        (GetVolumeType w vm dir).1 = (VolumeTypeUnknown, some e) ∧
        (GetVolumeType w vm dir).2.1 = vm) ∧
    (∀ info, w.stat (w.clean dir) = .ok info → info.isDir = false →
        (GetVolumeType w vm dir).1 = (VolumeTypeUnknown, some .notADirectory) ∧
        (GetVolumeType w vm dir).2.1 = vm) ∧
    (∀ info, w.stat (w.clean dir) = .ok info → info.isDir = true →
        w.mkdirTemp (w.clean dir) = none →
        (GetVolumeType w vm dir).1 = (VolumeTypeUnknown, some .cannotCreateDirectory) ∧
        (GetVolumeType w vm dir).2.1 = vm) := by
  rw [getVolumeType_probes_on_miss w vm dir h]
  refine ⟨?_, ?_, ?_⟩
  · intro e he
    have ht : getTempDir w (w.clean dir) = .error e := by
      simp only [getTempDir, he]
    simp [probeVolume, ht]
  · intro info hi hd
    have ht : getTempDir w (w.clean dir) = .error .notADirectory := by
      simp only [getTempDir, hi, hd, Bool.not_false, if_pos]
    simp [probeVolume, ht]
  · intro info hi hd hm
    have ht : getTempDir w (w.clean dir) = .error .cannotCreateDirectory := by
      simp only [getTempDir, hi, hd, hm, Bool.not_true, Bool.false_eq_true, if_false]
    simp [probeVolume, ht]

/-- Witness for the amended C4, on the empty cache: a world whose stat
fails with the not-exist error surfaces exactly that error, and a world
with a directory that cannot host the temp dir surfaces
ErrCannotCreateDirectory. -/
theorem getVolumeType_error_reporting_witness :
    ((GetVolumeType ⟨id, fun _ => .error .statNotExist, fun _ => none,
        fun _ => .error .probeFailed⟩ [] "/x").1
      = (VolumeTypeUnknown, some .statNotExist) ∧
     (GetVolumeType ⟨id, fun _ => .error .statNotExist, fun _ => none,
        fun _ => .error .probeFailed⟩ [] "/x").2.1 = []) ∧
    ((GetVolumeType ⟨id, fun _ => .ok ⟨true⟩, fun _ => none,
        fun _ => .error .probeFailed⟩ [] "/x").1
      = (VolumeTypeUnknown, some .cannotCreateDirectory) ∧
     (GetVolumeType ⟨id, fun _ => .ok ⟨true⟩, fun _ => none,
        fun _ => .error .probeFailed⟩ [] "/x").2.1 = []) :=
  ⟨(getVolumeType_error_reporting
      ⟨id, fun _ => .error .statNotExist, fun _ => none, fun _ => .error .probeFailed⟩
      [] "/x" rfl).1 .statNotExist rfl,
   (getVolumeType_error_reporting
      ⟨id, fun _ => .ok ⟨true⟩, fun _ => none, fun _ => .error .probeFailed⟩
      [] "/x" rfl).2.2 ⟨true⟩ rfl rfl rfl⟩

/-- C4 counterexample: the claim as stated says a nonexistent directory
fails with NotADirectoryError, but GetVolumeType returns the os.Stat error
verbatim there, which is not the ErrNotADirectory sentinel. -/
theorem getVolumeType_missing_dir_not_notADirectory :
    (GetVolumeType ⟨id, fun _ => .error .statNotExist, fun _ => none,
        fun _ => .error .probeFailed⟩ [] "/x").1
      = (VolumeTypeUnknown, some .statNotExist) ∧
    some OsError.statNotExist ≠ some OsError.notADirectory := by
  exact ⟨rfl, by decide⟩

/-- A concrete world where every path stats as a directory, temp dirs can
be created, and the probe classifies the volume as Ext. -/
def extWorld : ProbeWorld :=
  ⟨id, fun _ => .ok ⟨true⟩, fun d => some (d ++ "/.syncthing.t"), fun _ => .ok false⟩

/-- C5 failing input: querying the same directory twice. The first call
probes (count 1), returns the Ext classification and stores it with
dynamic type VolumeType; the second call performs no probe (count 0) but
returns (VolumeType(0), nil) instead of the cached classification: the
type assertion a.(int) fails on the stored VolumeType and yields the zero
value 0, which differs from VolumeTypeUnknown = 1, so 0 is returned early.
VolumeType(0) is neither the first call result VolumeTypeExt nor any of
the Unknown, Fat, Ext constants. -/
theorem getVolumeType_cached_wrong_classification :
    (GetVolumeType extWorld [] "/d").1 = (VolumeTypeExt, none) ∧
    (GetVolumeType extWorld [] "/d").2.2 = 1 ∧
    (GetVolumeType extWorld [] "/d").2.1
      = [("/d", GoAny.goVolumeType VolumeTypeExt)] ∧
    (GetVolumeType extWorld (GetVolumeType extWorld [] "/d").2.1 "/d").1
      = ((0 : Int), none) ∧
    (GetVolumeType extWorld (GetVolumeType extWorld [] "/d").2.1 "/d").2.2 = 0 ∧
    (0 : Int) ≠ VolumeTypeExt ∧ (0 : Int) ≠ VolumeTypeFat ∧
    (0 : Int) ≠ VolumeTypeUnknown := by
  exact ⟨rfl, rfl, rfl, rfl, rfl, by decide, by decide, by decide⟩

end fsutil

namespace fs

/-- EncoderType is a Go defined type over int32; the arithmetic never
leaves the three small constants, so Int models it exactly. -/
abbrev EncoderType := Int

/-- EncoderTypeNone does not encode filenames. -/
def EncoderTypeNone : EncoderType := 0

/-- EncoderTypeFat encodes FAT reserved characters. -/
def EncoderTypeFat : EncoderType := 1

/-- EncoderTypeUnset is the sentinel for an unset encoder type. -/
def EncoderTypeUnset : EncoderType := -1

/-- The String method of EncoderType (types.go): a switch over the three
named constants with an unknown default. -/
def encoderTypeString (t : EncoderType) : String :=
  if t = EncoderTypeNone then "none"
  else if t = EncoderTypeFat then "fat"
  else if t = EncoderTypeUnset then "unset"
  else "unknown"

/-- MarshalText returns the String form and a nil error. -/
def MarshalText (t : EncoderType) : String × Option String :=
  (encoderTypeString t, none)

/-- UnmarshalText maps the literals none and fat to their types and
everything else to the Unset sentinel; the returned error is always nil. -/
def UnmarshalText (bs : String) : EncoderType × Option String :=
  if bs = "none" then (EncoderTypeNone, none)
  else if bs = "fat" then (EncoderTypeFat, none)
  else (EncoderTypeUnset, none)

/-- C9: text serialization of EncoderType round-trips on the three values
None, Fat, Unset; UnmarshalText sends none and fat to their types, sends
every other string (unset included) to the Unset sentinel, and never
returns an error. -/
theorem encoderType_text_serialization :
    (∀ t : EncoderType,
        t = EncoderTypeNone ∨ t = EncoderTypeFat ∨ t = EncoderTypeUnset →
        UnmarshalText (MarshalText t).1 = (t, none)) ∧
    UnmarshalText "none" = (EncoderTypeNone, none) ∧
    UnmarshalText "fat" = (EncoderTypeFat, none) ∧
    (∀ s : String, s ≠ "none" → s ≠ "fat" → UnmarshalText s = (EncoderTypeUnset, none)) ∧
    (∀ s : String, (UnmarshalText s).2 = none) := by
  refine ⟨?_, by rfl, by rfl, ?_, ?_⟩
  · rintro t (rfl | rfl | rfl) <;> rfl
  · intro s h1 h2
    unfold UnmarshalText
    rw [if_neg h1, if_neg h2]
  · intro s
    unfold UnmarshalText
    by_cases h1 : s = "none"
    · rw [if_pos h1]
    · rw [if_neg h1]
      by_cases h2 : s = "fat"
      · rw [if_pos h2]
      · rw [if_neg h2]

/-- Witness for C9: the round trip applied at the Unset sentinel and the
default clause applied at the literal unset. -/
theorem encoderType_text_serialization_witness :
    UnmarshalText (MarshalText EncoderTypeUnset).1 = (EncoderTypeUnset, none) ∧
    UnmarshalText "unset" = (EncoderTypeUnset, none) :=
  ⟨encoderType_text_serialization.1 EncoderTypeUnset (Or.inr (Or.inr rfl)),
   encoderType_text_serialization.2.2.2.1 "unset" (by decide) (by decide)⟩

end fs

end Syncthing
